import Mathlib

/-!
# MCPLoginClient.cpp: a shallow embedding and its verified properties

The embedding follows `clients/C++/1.0 mcp_login/MCPLoginClient.cpp`.

* `std::map<std::string, std::string>` is a finite map, kept as an association
  list with pairwise distinct keys (`StdMap`); the program never iterates over
  a map, so the key order of `std::map` is not observable.
* `argv` is the list of the `argc` argument strings; a `std::string` taken
  from it is a Lean string.
* Every external call (OpenSSL, sockets) is an event of a trace; what the call
  returns is read from an environment record `Env`.  `SSL_new` is taken to
  return a session object: the program does not test its result.
* `Json::Value` and `Json::writeString` belong to the JsonCpp library; they are
  modelled for the values the program builds (null, string, object) and for a
  default-constructed `StreamWriterBuilder`.
* `std::stoi` follows the C++ standard (`strtol` in base 10) for a 32-bit `int`.
-/

namespace MCPLogin

/-! ## `std::map<std::string, std::string>` -/

/-- A `std::map<std::string, std::string>`: entries with pairwise distinct keys. -/
abbrev StdMap := List (String × String)

namespace StdMap

/-- The value stored under `k`, as `std::map::find` would locate it. -/
def find : StdMap → String → Option String
  | [], _ => none
  | (k', v') :: m, k => if k' = k then some v' else find m k

/-- The statement `m[k] = v`: overwrite the entry of `k`, or add one. -/
def assign : StdMap → String → String → StdMap
  | [], k, v => [(k, v)]
  | (k', v') :: m, k, v => if k' = k then (k', v) :: m else (k', v') :: assign m k v

/-- The expression `m[k]` read as a value: the stored value, or a fresh empty
string that is inserted under `k`.  Returns the value and the updated map. -/
def subscript (m : StdMap) (k : String) : String × StdMap :=
  match find m k with
  | some v => (v, m)
  | none => ("", assign m k "")

/-- The keys of the map. -/
def keys (m : StdMap) : List String := m.map Prod.fst

/-- The result of `std::map::size`. -/
def size (m : StdMap) : Nat := m.length

end StdMap

/-! ## `parseArguments` -/

/-- The `for` loop of `parseArguments`, entered with loop variable `i` and the
map built so far; `argc` is `argv.length`. -/
def parseArgumentsLoop (argv : List String) (i : Nat) (args : StdMap) : StdMap :=
  if h : i < argv.length then
    let key := argv.get ⟨i, h⟩
    if h1 : i + 1 < argv.length then
      -- args[key] = argv[++i]; then the loop's i++
      parseArgumentsLoop argv (i + 1 + 1) (StdMap.assign args key (argv.get ⟨i + 1, h1⟩))
    else
      parseArgumentsLoop argv (i + 1) args
  else
    args
termination_by argv.length - i

/-- The function `parseArguments(argc, argv)` with `argc = argv.length`. -/
def parseArguments (argv : List String) : StdMap :=
  parseArgumentsLoop argv 1 []

/-- The flag/value pairs of a token list: tokens `2j` and `2j+1` form pair `j`;
a last token without a successor forms no pair. -/
def pairsOf : List String → List (String × String)
  | k :: v :: rest => (k, v) :: pairsOf rest
  | _ => []

/-- The statements `args[k] = v` carried out for a list of pairs, in order. -/
def assignAll (args : StdMap) (ps : List (String × String)) : StdMap :=
  ps.foldl (fun m p => StdMap.assign m p.1 p.2) args

/-- The token list spelled by a list of flag/value pairs. -/
def tokensOf : List (String × String) → List String
  | [] => []
  | (k, v) :: ps => k :: v :: tokensOf ps

/-! ## JsonCpp values

`Json::Value` is the value type of the JsonCpp library (`<json/json.h>`).  The
program builds only null, string and object values.  An object keeps its
members in a `std::map` ordered by key, so members are kept sorted here. -/

mutual
/-- A `Json::Value` of kind null, string or object. -/
inductive JsonValue
  | null
  | str (s : String)
  | obj (members : JsonMembers)
/-- The members of an object value, in the key order of its `std::map`. -/
inductive JsonMembers
  | nil
  | cons (key : String) (value : JsonValue) (rest : JsonMembers)
end

namespace JsonMembers

/-- The member stored under `k`, if any. -/
def find : JsonMembers → String → Option JsonValue
  | nil, _ => none
  | cons k' v' rest, k => if k' = k then some v' else find rest k

/-- Store `x` under `k`, replacing the member of that key or inserting a new
member at its place in key order (the lexicographic order of the key's
characters, as `CZString::operator<` compares). -/
def assign : JsonMembers → String → JsonValue → JsonMembers
  | nil, k, x => cons k x nil
  | cons k' v' rest, k, x =>
    if k' = k then cons k' x rest
    else if k.toList < k'.toList then cons k x (cons k' v' rest)
    else cons k' v' (assign rest k x)

/-- The member names in iteration order, as `getMemberNames` lists them. -/
def names : JsonMembers → List String
  | nil => []
  | cons k _ rest => k :: names rest

end JsonMembers

namespace JsonValue

/-- The object view that `operator[]` works on: a null value turns into an
empty object, an object stays as it is, any other kind fails the library's
assertion (`none`). -/
def asObject : JsonValue → Option JsonMembers
  | null => some JsonMembers.nil
  | obj ms => some ms
  | str _ => none

/-- The statement `v[k] = x`. -/
def assignMember (v : JsonValue) (k : String) (x : JsonValue) : Option JsonValue :=
  match asObject v with
  | none => none
  | some ms => some (obj (ms.assign k x))

/-- The statement `v[k1][k2] = x`: `v[k1]` resolves to the member of `k1`, a
fresh null member when there is none, and `[k2] = x` is carried out on it. -/
def assignMember2 (v : JsonValue) (k1 k2 : String) (x : JsonValue) : Option JsonValue :=
  match asObject v with
  | none => none
  | some ms =>
    match asObject ((ms.find k1).getD null) with
    | none => none
    | some cms => some (obj (ms.assign k1 (obj (cms.assign k2 x))))

/-- The member `k` of an object value. -/
def member (v : JsonValue) (k : String) : Option JsonValue :=
  match v with
  | obj ms => ms.find k
  | _ => none

/-- The member names of an object value. -/
def memberNames : JsonValue → List String
  | obj ms => ms.names
  | _ => []

end JsonValue

/-- What is taken from the JsonCpp library and the C++ runtime without a model
of its own: the escape sequence for a control or non-ASCII character (it
differs between library versions), the response parser together with
`toStyledString`, and the text of the exception `std::stoi` throws. -/
structure JsonCpp where
  /-- Escape of a character below 0x20 without a short form, or from 0x80 up. -/
  escapeOther : Char → String
  /-- The call `parseFromStream` followed by `toStyledString`: the error text
  `errs`, or the styled rendering of the parsed value. -/
  parseFromStream : List Nat → Except String String
  /-- The `what()` of the exception thrown by `std::stoi`. -/
  stoiWhat : String

/-- The escape of one character in `valueToQuotedString`. -/
def escapeChar (lib : JsonCpp) (c : Char) : String :=
  if c = Char.ofNat 34 then "\\\""
  else if c = Char.ofNat 92 then "\\\\"
  else if c = Char.ofNat 8 then "\\b"
  else if c = Char.ofNat 12 then "\\f"
  else if c = Char.ofNat 10 then "\\n"
  else if c = Char.ofNat 13 then "\\r"
  else if c = Char.ofNat 9 then "\\t"
  else if c.toNat < 32 ∨ 128 ≤ c.toNat then lib.escapeOther c
  else c.toString

/-- The library's `valueToQuotedString`: the string in double quotes with its
special characters escaped. -/
def valueToQuotedString (lib : JsonCpp) (s : String) : String :=
  "\"" ++ String.join (s.toList.map (escapeChar lib)) ++ "\""

/-- The state of a `BuiltStyledStreamWriter`: the output stream, the flag
`indented_` and the current indentation depth (`indentString_` is that many
copies of `indentation_`). -/
structure Writer where
  sout : String
  indented : Bool
  depth : Nat

namespace Writer

/-- The setting `indentation` of a default `StreamWriterBuilder`. -/
def indentation : String := "\t"

/-- The colon symbol chosen for a non-empty indentation. -/
def colonSymbol : String := " : "

/-- The string `indentString_`. -/
def indentString (w : Writer) : String :=
  String.join (List.replicate w.depth indentation)

/-- The step `writeIndent`: a line break and the current indentation. -/
def writeIndent (w : Writer) : Writer :=
  { w with sout := w.sout ++ "\n" ++ w.indentString }

/-- The step `writeWithIndent(value)`. -/
def writeWithIndent (w : Writer) (value : String) : Writer :=
  let w1 := if w.indented then w else w.writeIndent
  { w1 with sout := w1.sout ++ value, indented := false }

/-- The step `pushValue(value)` outside multi-line array mode. -/
def pushValue (w : Writer) (value : String) : Writer :=
  { w with sout := w.sout ++ value }

/-- The step `indent`. -/
def indent (w : Writer) : Writer := { w with depth := w.depth + 1 }

/-- The step `unindent`. -/
def unindent (w : Writer) : Writer := { w with depth := w.depth - 1 }

/-- The stream insertion `*sout_ << text`. -/
def put (w : Writer) (text : String) : Writer := { w with sout := w.sout ++ text }

end Writer

mutual
/-- The method `BuiltStyledStreamWriter::writeValue` for a value without comments. -/
def writeValue (lib : JsonCpp) : Writer → JsonValue → Writer
  | w, JsonValue.null => w.pushValue "null"
  | w, JsonValue.str s => w.pushValue (valueToQuotedString lib s)
  | w, JsonValue.obj JsonMembers.nil => w.pushValue "\x7b\x7d"
  | w, JsonValue.obj (JsonMembers.cons k v rest) =>
    (((w.writeWithIndent "\x7b").indent |> fun w1 =>
      writeMembers lib w1 (JsonMembers.cons k v rest)).unindent).writeWithIndent "\x7d"
/-- The member loop of `writeValue`: name, colon, value, and a comma between
members. -/
def writeMembers (lib : JsonCpp) : Writer → JsonMembers → Writer
  | w, JsonMembers.nil => w
  | w, JsonMembers.cons k v JsonMembers.nil =>
    writeValue lib ((w.writeWithIndent (valueToQuotedString lib k)).put Writer.colonSymbol) v
  | w, JsonMembers.cons k v (JsonMembers.cons k2 v2 rest) =>
    writeMembers lib
      ((writeValue lib
        ((w.writeWithIndent (valueToQuotedString lib k)).put Writer.colonSymbol) v).put ",")
      (JsonMembers.cons k2 v2 rest)
end

/-- The call `Json::writeString(writer, root)` with a default-constructed
`StreamWriterBuilder`: `BuiltStyledStreamWriter::write` starts with
`indented_ = true` and an empty indentation, and the ending line feed is empty. -/
def writeString (lib : JsonCpp) (root : JsonValue) : String :=
  (writeValue lib { sout := "", indented := true, depth := 0 } root).sout

/-! ## `sendRequest` -/

/-- The external calls of `sendRequest`, and its one store into `buffer`. -/
inductive Ev
  | SSL_load_error_strings
  | OpenSSL_add_ssl_algorithms
  | EVP_cleanup
  | TLS_client_method
  | SSL_CTX_new (created : Bool)
  | perror (msg : String)
  | ERR_print_errors_fp
  | WSAStartup
  | WSACleanup
  | socket (res : Int)
  | closesocket
  | close
  | inet_pton (src : String)
  | connect (addr : String) (sinPort : Int)
  | SSL_new
  | SSL_set_fd
  | SSL_connect
  | SSL_write (buf : String)
  | SSL_read (num : Nat)
  | storeNul (index : Int)
  | SSL_free
  | SSL_CTX_free
  deriving DecidableEq, Repr

/-- What the external calls of one `sendRequest` call return. -/
structure Env where
  /-- Whether the program was compiled with `_WIN32` defined. -/
  win32 : Bool
  /-- The value of `EXIT_FAILURE`. -/
  exitFailure : Int
  /-- Whether `SSL_CTX_new` returns a context (not a null pointer). -/
  ctxCreated : Bool
  /-- The result of `socket`. -/
  socketRes : Int
  /-- The result of `inet_pton`. -/
  inetPtonRes : Int
  /-- The result of `connect`. -/
  connectRes : Int
  /-- The result of `SSL_connect`. -/
  sslConnectRes : Int
  /-- The result of `SSL_write`. -/
  sslWriteRes : Int
  /-- The result of `SSL_read`. -/
  sslReadRes : Int
  /-- The bytes `SSL_read` stores into the buffer, by index. -/
  received : Nat → Nat
  /-- The bytes the uninitialised buffer holds before the read, by index. -/
  stack : Nat → Nat

/-- How a call ends. -/
inductive Outcome (α : Type)
  /-- A normal return. -/
  | returned (value : α)
  /-- A `std::runtime_error` with this `what()`. -/
  | threw (what : String)
  /-- The call `exit(status)`. -/
  | exited (status : Int)
  /-- A store outside the buffer. -/
  | undefined
  deriving DecidableEq, Repr

/-- One execution of `sendRequest`: the calls it made, in order, and its end. -/
structure Run where
  trace : List Ev
  outcome : Outcome (List Nat)

/-- The size of `char buffer[4096]`. -/
def bufferSize : Nat := 4096

/-- The 16-bit port that `htons(serverPort)` stores in `sin_port`: the `int`
argument converted to `uint16_t`.  (The byte swap of `htons` changes the
representation of that number, not the number.) -/
def htons (hostshort : Int) : Int := hostshort % 65536

/-- The call `WSAStartup`, present under `_WIN32` only. -/
def wsaStartup (env : Env) : List Ev := if env.win32 then [Ev.WSAStartup] else []

/-- The call `WSACleanup`, present under `_WIN32` only. -/
def wsaCleanup (env : Env) : List Ev := if env.win32 then [Ev.WSACleanup] else []

/-- The socket teardown of lines 82-87 and alike: `closesocket` and
`WSACleanup` under `_WIN32`, `close` otherwise. -/
def closeSocket (env : Env) : List Ev :=
  if env.win32 then [Ev.closesocket, Ev.WSACleanup] else [Ev.close]

/-- The calls of `init_openssl`. -/
def init_openssl : List Ev := [Ev.SSL_load_error_strings, Ev.OpenSSL_add_ssl_algorithms]

/-- The calls of `cleanup_openssl`. -/
def cleanup_openssl : List Ev := [Ev.EVP_cleanup]

/-- The calls of `create_context`; without a context it reports the error and
the process exits. -/
def create_context (env : Env) : List Ev :=
  [Ev.TLS_client_method, Ev.SSL_CTX_new env.ctxCreated] ++
    if env.ctxCreated then []
    else [Ev.perror "Unable to create SSL context", Ev.ERR_print_errors_fp]

/-- The `buffer` after `SSL_read` returned `bytesRead`: the received bytes in
front, the previous content behind them. -/
def bufferAfterRead (env : Env) : List Nat :=
  (List.range bufferSize).map fun (i : Nat) =>
    if Int.ofNat i < env.sslReadRes then env.received i else env.stack i

/-- The `std::string` built from a `char*`: the bytes before the first zero. -/
def cString (buffer : List Nat) : List Nat := buffer.takeWhile (fun b => b != 0)

/-- The function `sendRequest(serverIp, serverPort, payload)`. -/
def sendRequest (lib : JsonCpp) (env : Env) (serverIp : String) (serverPort : Int)
    (payload : JsonValue) : Run :=
  let t0 := init_openssl ++ create_context env
  if !env.ctxCreated then
    -- exit(EXIT_FAILURE) inside create_context
    ⟨t0, Outcome.exited env.exitFailure⟩
  else
  let t1 := t0 ++ wsaStartup env ++ [Ev.socket env.socketRes]
  if env.socketRes < 0 then
    ⟨t1 ++ [Ev.SSL_CTX_free] ++ wsaCleanup env, Outcome.threw "Failed to create socket"⟩
  else
  let sinPort := htons serverPort
  let t2 := t1 ++ [Ev.inet_pton serverIp]
  if env.inetPtonRes ≤ 0 then
    ⟨t2 ++ closeSocket env ++ [Ev.SSL_CTX_free], Outcome.threw "Invalid server IP address"⟩
  else
  let t3 := t2 ++ [Ev.connect serverIp sinPort]
  if env.connectRes < 0 then
    ⟨t3 ++ closeSocket env ++ [Ev.SSL_CTX_free], Outcome.threw "Connection failed"⟩
  else
  let t4 := t3 ++ [Ev.SSL_new, Ev.SSL_set_fd, Ev.SSL_connect]
  if env.sslConnectRes ≤ 0 then
    ⟨t4 ++ [Ev.ERR_print_errors_fp] ++ closeSocket env ++ [Ev.SSL_free, Ev.SSL_CTX_free],
      Outcome.threw "Failed to create SSL connection"⟩
  else
  let payloadJson := writeString lib payload
  let t5 := t4 ++ [Ev.SSL_write payloadJson]
  if env.sslWriteRes ≤ 0 then
    ⟨t5 ++ closeSocket env ++ [Ev.SSL_free, Ev.SSL_CTX_free],
      Outcome.threw "Failed to send data"⟩
  else
  let t6 := t5 ++ [Ev.SSL_read (bufferSize - 1)]
  let bytesRead := env.sslReadRes
  if bytesRead < 0 then
    ⟨t6 ++ closeSocket env ++ [Ev.SSL_free, Ev.SSL_CTX_free],
      Outcome.threw "Failed to receive data"⟩
  else
  let t7 := t6 ++ [Ev.storeNul bytesRead]
  if bytesRead < bufferSize then
    let buffer := (bufferAfterRead env).set bytesRead.toNat 0
    ⟨t7 ++ [Ev.SSL_free] ++ closeSocket env ++ [Ev.SSL_CTX_free] ++ cleanup_openssl,
      Outcome.returned (cString buffer)⟩
  else
    ⟨t7, Outcome.undefined⟩

/-! ## Observations on a trace -/

/-- The byte strings handed to `SSL_write`, in order. -/
def writesOf (trace : List Ev) : List String :=
  trace.filterMap fun e => match e with
    | Ev.SSL_write buf => some buf
    | _ => none

/-- The byte counts requested from `SSL_read`, in order. -/
def readsOf (trace : List Ev) : List Nat :=
  trace.filterMap fun e => match e with
    | Ev.SSL_read num => some num
    | _ => none

/-- The indices of the stores `buffer[i] = 0`, in order. -/
def storesOf (trace : List Ev) : List Int :=
  trace.filterMap fun e => match e with
    | Ev.storeNul index => some index
    | _ => none

/-- The address and port of every `connect`, in order. -/
def connectsOf (trace : List Ev) : List (String × Int) :=
  trace.filterMap fun e => match e with
    | Ev.connect addr sinPort => some (addr, sinPort)
    | _ => none

/-- The life of one handle. -/
inductive Handle
  | unacquired
  | live
  | released
  /-- Released while not live (twice, or never acquired), or acquired twice. -/
  | invalid
  deriving DecidableEq, Repr

/-- The handle after it is acquired. -/
def Handle.acquire : Handle → Handle
  | Handle.unacquired => Handle.live
  | _ => Handle.invalid

/-- The handle after it is released. -/
def Handle.release : Handle → Handle
  | Handle.live => Handle.released
  | _ => Handle.invalid

/-- The three handles of a session. -/
structure Handles where
  ctx : Handle
  sock : Handle
  ssl : Handle
  deriving DecidableEq, Repr

/-- The effect of one call on the handles: `SSL_CTX_new` and `socket` acquire
when they succeed, `SSL_new` acquires, and `SSL_CTX_free`, `close` or
`closesocket`, and `SSL_free` release. -/
def Handles.step (h : Handles) : Ev → Handles
  | Ev.SSL_CTX_new created => if created then { h with ctx := h.ctx.acquire } else h
  | Ev.SSL_CTX_free => { h with ctx := h.ctx.release }
  | Ev.socket res => if 0 ≤ res then { h with sock := h.sock.acquire } else h
  | Ev.close => { h with sock := h.sock.release }
  | Ev.closesocket => { h with sock := h.sock.release }
  | Ev.SSL_new => { h with ssl := h.ssl.acquire }
  | Ev.SSL_free => { h with ssl := h.ssl.release }
  | _ => h

/-- The handles after a trace, all of them unacquired before it. -/
def handlesAfter (trace : List Ev) : Handles :=
  trace.foldl Handles.step ⟨Handle.unacquired, Handle.unacquired, Handle.unacquired⟩

/-- What a call releases. -/
inductive Resource
  | session
  | socket
  | context
  | tables
  deriving DecidableEq, Repr

/-- The resource a call releases, if it is a release. -/
def releaseOf : Ev → Option Resource
  | Ev.SSL_free => some Resource.session
  | Ev.close => some Resource.socket
  | Ev.closesocket => some Resource.socket
  | Ev.SSL_CTX_free => some Resource.context
  | Ev.EVP_cleanup => some Resource.tables
  | _ => none

/-- The releases of a trace, in order. -/
def releaseTrace (trace : List Ev) : List Resource := trace.filterMap releaseOf

/-- The failure points of `sendRequest` after the socket exists. -/
inductive FailurePoint
  | addressParse
  | connect
  | handshake
  | write
  | read
  deriving DecidableEq, Repr

/-- The context and the socket are created and `inet_pton` succeeds. -/
def reachesConnect (env : Env) : Prop :=
  env.ctxCreated = true ∧ 0 ≤ env.socketRes ∧ 0 < env.inetPtonRes

/-- Every step up to and including the handshake succeeds. -/
def reachesWrite (env : Env) : Prop :=
  reachesConnect env ∧ 0 ≤ env.connectRes ∧ 0 < env.sslConnectRes

/-- Every step up to and including the write succeeds. -/
def reachesRead (env : Env) : Prop :=
  reachesWrite env ∧ 0 < env.sslWriteRes

/-- Every step before the failure point succeeds and the step at the failure
point fails, by the test `sendRequest` applies to its result. -/
def failsAt (env : Env) : FailurePoint → Prop
  | FailurePoint.addressParse =>
    env.ctxCreated = true ∧ 0 ≤ env.socketRes ∧ env.inetPtonRes ≤ 0
  | FailurePoint.connect => reachesConnect env ∧ env.connectRes < 0
  | FailurePoint.handshake =>
    reachesConnect env ∧ 0 ≤ env.connectRes ∧ env.sslConnectRes ≤ 0
  | FailurePoint.write => reachesWrite env ∧ env.sslWriteRes ≤ 0
  | FailurePoint.read => reachesRead env ∧ env.sslReadRes < 0

instance (env : Env) : Decidable (reachesConnect env) := by
  unfold reachesConnect; infer_instance

instance (env : Env) : Decidable (reachesWrite env) := by
  unfold reachesWrite; infer_instance

instance (env : Env) : Decidable (reachesRead env) := by
  unfold reachesRead; infer_instance

instance (env : Env) (fp : FailurePoint) : Decidable (failsAt env fp) := by
  cases fp <;> (unfold failsAt; infer_instance)

/-- Whether `SSL_new` has run before the failure point. -/
def sessionCreated : FailurePoint → Bool
  | FailurePoint.addressParse => false
  | FailurePoint.connect => false
  | _ => true

/-- The text of the error thrown at a failure point. -/
def errorText : FailurePoint → String
  | FailurePoint.addressParse => "Invalid server IP address"
  | FailurePoint.connect => "Connection failed"
  | FailurePoint.handshake => "Failed to create SSL connection"
  | FailurePoint.write => "Failed to send data"
  | FailurePoint.read => "Failed to receive data"

/-- A library instance for concrete runs: other characters are passed through,
the response parser accepts everything. -/
def exampleLib : JsonCpp := ⟨fun c => c.toString, fun _ => Except.ok "", "stoi"⟩

/-- A POSIX run in which every call succeeds and the peer sends `ok`. -/
def envAllSucceed : Env :=
  ⟨false, 1, true, 3, 1, 0, 1, 74, 2, fun i => if i = 0 then 111 else 107, fun _ => 0⟩

/-- A POSIX run in which the TLS handshake fails. -/
def envHandshakeFails : Env := { envAllSucceed with sslConnectRes := 0 }

/-- A Windows run in which the read fails. -/
def envReadFails : Env := { envAllSucceed with win32 := true, sslReadRes := -1 }

/-! ## `main` -/

/-- The predicate `isspace` of the C locale. -/
def isspace (c : Char) : Bool :=
  c = ' ' || c = Char.ofNat 9 || c = Char.ofNat 10 || c = Char.ofNat 11 ||
    c = Char.ofNat 12 || c = Char.ofNat 13

/-- The number spelled by decimal digits. -/
def digitsValue (ds : List Char) : Nat :=
  ds.foldl (fun acc c => 10 * acc + (c.toNat - 48)) 0

/-- The call `std::stoi(str)` for a 32-bit `int`: leading white space is
skipped, an optional sign and the longest run of decimal digits are read and
what follows is ignored; `none` stands for the exception thrown when there is
no digit (`std::invalid_argument`) or the value does not fit
(`std::out_of_range`). -/
def stoi (str : String) : Option Int :=
  let s := str.toList.dropWhile isspace
  let neg := s.head? = some '-'
  let s1 := if s.head? = some '-' ∨ s.head? = some '+' then s.tail else s
  let ds := s1.takeWhile Char.isDigit
  if ds = [] then none
  else
    let v : Int := if neg then - (digitsValue ds : Int) else (digitsValue ds : Int)
    if v < -2147483648 ∨ 2147483647 < v then none else some v

/-- How the process ends. -/
inductive ProcessEnd
  /-- The function `main` returns this value. -/
  | returned (code : Int)
  /-- The call `exit(status)` inside `create_context`. -/
  | exited (status : Int)
  /-- Undefined behaviour inside `sendRequest`. -/
  | undefined
  deriving DecidableEq, Repr

/-- One execution of `main`: how it ends, the `sendRequest` calls it made with
their arguments, the external calls made by them, and the text written to the
two streams. -/
structure MainRun where
  ending : ProcessEnd
  calls : List (String × Int × JsonValue)
  trace : List Ev
  cout : List String
  cerr : List String

/-- The payload of lines 183-186: `payload["command"] = "login"`,
`payload["arguments"]["email"] = email`,
`payload["arguments"]["password"] = password`, starting from a null value. -/
def buildPayload (email password : String) : Option JsonValue :=
  (JsonValue.assignMember JsonValue.null "command" (JsonValue.str "login")).bind fun p1 =>
  (JsonValue.assignMember2 p1 "arguments" "email" (JsonValue.str email)).bind fun p2 =>
  JsonValue.assignMember2 p2 "arguments" "password" (JsonValue.str password)

/-- The `catch` block of `main`. -/
def caught (calls : List (String × Int × JsonValue)) (trace : List Ev) (cout : List String)
    (what : String) : MainRun :=
  ⟨ProcessEnd.returned 1, calls, trace, cout, ["❌ ERROR: " ++ what ++ "\n"]⟩

/-- Lines 175-201 of `main`: validation of the four parameters, the payload,
the request and the decoding of the response. -/
def mainBody (lib : JsonCpp) (env : Env) (serverIp : String) (serverPort : Int)
    (email password : String) : MainRun :=
  if serverIp = "" ∨ serverPort = 0 ∨ email = "" ∨ password = "" then
    ⟨ProcessEnd.returned 1, [], [], [], ["❌ ERROR: Missing required parameters.\n"]⟩
  else
    let cout := ["🔐 Logging in...\n"]
    match buildPayload email password with
    | none => caught [] [] cout "Json::LogicError"
    | some payload =>
      let run := sendRequest lib env serverIp serverPort payload
      let calls := [(serverIp, serverPort, payload)]
      match run.outcome with
      | Outcome.threw what => caught calls run.trace cout what
      | Outcome.exited status => ⟨ProcessEnd.exited status, calls, run.trace, cout, []⟩
      | Outcome.undefined => ⟨ProcessEnd.undefined, calls, run.trace, cout, []⟩
      | Outcome.returned responseJson =>
        match lib.parseFromStream responseJson with
        | Except.error errs =>
          caught calls run.trace cout ("Failed to parse server response: " ++ errs)
        | Except.ok styled =>
          ⟨ProcessEnd.returned 0, calls, run.trace,
            cout ++ ["✅ Server Response:\n" ++ styled], []⟩

/-- The function `main(argc, argv)` with `argc = argv.length`: lines 167-173
read the four parameters with `args[...]`, each read returning the value and
the map it leaves behind; an exception of `std::stoi` goes to the `catch`
block. -/
def main (lib : JsonCpp) (env : Env) (argv : List String) : MainRun :=
  let args := parseArguments argv
  let ip := StdMap.subscript args "--server-ip"
  let port := StdMap.subscript ip.2 "--server-port"
  match stoi port.1 with
  | none => caught [] [] [] lib.stoiWhat
  | some serverPort =>
    let email := StdMap.subscript port.2 "--email"
    let password := StdMap.subscript email.2 "--password"
    mainBody lib env ip.1 serverPort email.1 password.1

/-- No value, or an empty value, is given for the flag. -/
def missingOrEmpty (args : StdMap) (flag : String) : Prop :=
  StdMap.find args flag = none ∨ StdMap.find args flag = some ""

/-- The text is an integer numeral as a whole: an optional sign followed by one
or more decimal digits and nothing else. -/
def isIntegerText (s : String) : Bool :=
  let cs := s.toList
  let ds := if cs.head? = some '-' ∨ cs.head? = some '+' then cs.tail else cs
  !ds.isEmpty && ds.all Char.isDigit

/-- The flag `--server-port` has no value, or one that `std::stoi` rejects
(no leading integer after optional white space, or a value outside `int`), or
one whose leading integer is 0.  Text behind the leading integer does not
count: `std::stoi` ignores it. -/
def badPort (args : StdMap) : Prop :=
  match StdMap.find args "--server-port" with
  | none => True
  | some s => stoi s = none ∨ stoi s = some 0

/-- A required field is missing or empty. -/
def requiredMissing (args : StdMap) : Prop :=
  missingOrEmpty args "--server-ip" ∨ missingOrEmpty args "--email" ∨
    missingOrEmpty args "--password" ∨ badPort args

instance (args : StdMap) (flag : String) : Decidable (missingOrEmpty args flag) := by
  unfold missingOrEmpty; infer_instance

instance (args : StdMap) : Decidable (badPort args) := by
  unfold badPort; split <;> infer_instance

instance (args : StdMap) : Decidable (requiredMissing args) := by
  unfold requiredMissing; infer_instance

/-! ## Properties of `parseArguments` -/

theorem parseArgumentsLoop_eq (argv : List String) (i : Nat) (args : StdMap) :
    parseArgumentsLoop argv i args = assignAll args (pairsOf (argv.drop i)) := by
  generalize h : argv.length - i = n
  induction n using Nat.strong_induction_on generalizing i args with
  | _ n ih =>
    subst h
    rw [parseArgumentsLoop]
    by_cases h0 : i < argv.length
    · by_cases h1 : i + 1 < argv.length
      · simp only [h0, h1, dite_true]
        rw [ih (argv.length - (i + 1 + 1)) (by omega) (i + 1 + 1) _ rfl]
        rw [List.drop_eq_getElem_cons h0, List.drop_eq_getElem_cons h1]
        simp [pairsOf, assignAll]
      · simp only [h0, h1, dite_true, dite_false]
        rw [ih (argv.length - (i + 1)) (by omega) (i + 1) _ rfl]
        rw [List.drop_eq_getElem_cons h0]
        have h2 : argv.drop (i + 1) = [] := List.drop_eq_nil_of_le (by omega)
        simp [h2, pairsOf]
    · simp only [h0, dite_false]
      have h2 : argv.drop i = [] := List.drop_eq_nil_of_le (by omega)
      simp [h2, pairsOf, assignAll]

theorem parseArguments_eq (argv : List String) :
    parseArguments argv = assignAll [] (pairsOf (argv.drop 1)) :=
  parseArgumentsLoop_eq argv 1 []

theorem find_assign (m : StdMap) (k v k' : String) :
    StdMap.find (StdMap.assign m k v) k' = if k = k' then some v else StdMap.find m k' := by
  induction m with
  | nil => simp [StdMap.assign, StdMap.find]
  | cons p m ih =>
    obtain ⟨a, b⟩ := p
    by_cases h : a = k
    · subst h
      by_cases h2 : a = k' <;> simp [StdMap.assign, StdMap.find, h2]
    · by_cases h2 : a = k'
      · subst h2
        have : ¬ k = a := fun e => h e.symm
        simp [StdMap.assign, StdMap.find, h, this]
      · simp [StdMap.assign, StdMap.find, h, h2, ih]

theorem assignAll_append (m : StdMap) (ps qs : List (String × String)) :
    assignAll m (ps ++ qs) = assignAll (assignAll m ps) qs := by
  simp [assignAll, List.foldl_append]

theorem find_assignAll (m : StdMap) (ps : List (String × String)) (k : String) :
    StdMap.find (assignAll m ps) k =
      match ps.reverse.find? (fun p => p.1 = k) with
      | some p => some p.2
      | none => StdMap.find m k := by
  induction ps using List.reverseRecOn with
  | nil => simp [assignAll]
  | append_singleton ps p ih =>
    rw [assignAll_append]
    simp only [assignAll, List.foldl_cons, List.foldl_nil, List.reverse_append, List.reverse_cons,
      List.reverse_nil, List.nil_append, List.singleton_append, List.find?_cons]
    rw [find_assign]
    by_cases h : p.1 = k
    · simp [h]
    · simp only [h, if_false, decide_False]
      exact ih

theorem pairsOf_getElem? (ts : List String) (j : Nat) (k v : String) :
    (pairsOf ts)[j]? = some (k, v) ↔ ts[2 * j]? = some k ∧ ts[2 * j + 1]? = some v := by
  induction ts using pairsOf.induct generalizing j with
  | case1 a b rest ih =>
    cases j with
    | zero => simp [pairsOf]
    | succ j =>
      have e1 : 2 * (j + 1) = 2 * j + 1 + 1 := by ring
      have e2 : 2 * (j + 1) + 1 = 2 * j + 1 + 1 + 1 := by ring
      simp only [pairsOf, List.getElem?_cons_succ, e1, e2]
      exact ih j
  | case2 ts hne =>
    have hp : pairsOf ts = [] := by
      unfold pairsOf
      split
      · exact absurd rfl (hne _ _ _)
      · rfl
    have hl : ts.length ≤ 1 := by
      match ts, hne with
      | [], _ => simp
      | [_], _ => simp
      | a :: b :: r, hne => exact absurd rfl (hne a b r)
    rw [hp]
    simp only [List.getElem?_nil]
    constructor
    · intro h
      cases h
    · rintro ⟨_, h2⟩
      have := (List.getElem?_eq_some.mp h2).1
      omega

theorem reverse_find?_eq_some {α : Type} (p : α → Bool) (l : List α) (b : α) :
    l.reverse.find? p = some b ↔
      ∃ j : Nat, l[j]? = some b ∧ p b = true ∧
        ∀ (j' : Nat) (q : α), j < j' → l[j']? = some q → p q = false := by
  rw [List.find?_eq_some]
  constructor
  · rintro ⟨hb, as, bs, hl, has⟩
    have hl2 : l = bs.reverse ++ b :: as.reverse := by
      have := congrArg List.reverse hl
      simpa using this
    refine ⟨bs.reverse.length, ?_, hb, ?_⟩
    · rw [hl2, List.getElem?_append_right (le_refl _)]
      simp
    · intro j' q hj hq
      rw [hl2, List.getElem?_append_right (by omega)] at hq
      obtain ⟨d, hd⟩ : ∃ d, j' - bs.reverse.length = d + 1 := ⟨j' - bs.reverse.length - 1, by omega⟩
      rw [hd, List.getElem?_cons_succ] at hq
      have hmem : q ∈ as := by
        have := List.getElem?_mem hq
        simpa using this
      simpa using has q hmem
  · rintro ⟨j, hj, hb, hlast⟩
    obtain ⟨hlt, hget⟩ := List.getElem?_eq_some.mp hj
    refine ⟨hb, (l.drop (j + 1)).reverse, (l.take j).reverse, ?_, ?_⟩
    · have : l = l.take j ++ b :: l.drop (j + 1) := by
        rw [← hget, ← List.drop_eq_getElem_cons hlt, List.take_append_drop]
      conv_lhs => rw [this]
      simp
    · intro a ha
      rw [List.mem_reverse] at ha
      obtain ⟨i, hi⟩ := List.mem_iff_getElem?.mp ha
      rw [List.getElem?_drop] at hi
      simpa using hlast (j + 1 + i) a (by omega) hi

theorem find_assignAll_nil_eq_some (ps : List (String × String)) (k v : String) :
    StdMap.find (assignAll [] ps) k = some v ↔
      ∃ j : Nat, ps[j]? = some (k, v) ∧
        ∀ (j' : Nat) (q : String × String), j < j' → ps[j']? = some q → q.1 ≠ k := by
  rw [find_assignAll]
  constructor
  · intro h
    cases hf : ps.reverse.find? (fun p => decide (p.1 = k)) with
    | none => rw [hf] at h; simp [StdMap.find] at h
    | some p =>
      rw [hf] at h
      obtain ⟨j, hj, hp, hlast⟩ := (reverse_find?_eq_some _ ps p).mp hf
      simp only [Option.some.injEq] at h
      simp only [decide_eq_true_eq] at hp
      refine ⟨j, ?_, ?_⟩
      · rw [hj, ← hp, ← h]
      · intro j' q hlt hq
        simpa using hlast j' q hlt hq
  · rintro ⟨j, hj, hlast⟩
    have hf : ps.reverse.find? (fun p => decide (p.1 = k)) = some (k, v) := by
      rw [reverse_find?_eq_some]
      refine ⟨j, hj, by simp, ?_⟩
      intro j' q hlt hq
      simpa using hlast j' q hlt hq
    rw [hf]

theorem find_assignAll_nil_eq_none (ps : List (String × String)) (k : String) :
    StdMap.find (assignAll [] ps) k = none ↔ ∀ p ∈ ps, p.1 ≠ k := by
  rw [find_assignAll]
  cases hf : ps.reverse.find? (fun p => decide (p.1 = k)) with
  | none =>
    simp only [StdMap.find, true_iff]
    intro p hp
    have := List.find?_eq_none.mp hf p (List.mem_reverse.mpr hp)
    simpa using this
  | some p =>
    refine ⟨(fun h => by cases h), fun hall => ?_⟩
    exfalso
    have h1 := List.find?_some hf
    have h2 := List.mem_of_find?_eq_some hf
    simp only [decide_eq_true_eq] at h1
    exact hall p (List.mem_reverse.mp h2) h1

theorem mem_keys_iff (m : StdMap) (k : String) :
    k ∈ StdMap.keys m ↔ StdMap.find m k ≠ none := by
  induction m with
  | nil => simp [StdMap.keys, StdMap.find]
  | cons p m ih =>
    obtain ⟨a, b⟩ := p
    by_cases h : a = k
    · simp [StdMap.keys, StdMap.find, h]
    · have h' : ¬ k = a := fun e => h e.symm
      simp only [StdMap.keys, List.map_cons, List.mem_cons, h', false_or, StdMap.find, h,
        if_false]
      exact ih

/-- C4: for every argument vector and key `k`, `parseArguments` maps `k` to `v`
exactly when some complete pair (tokens `2j` and `2j+1` of `argv[1..]`) has flag
`k` and value `v` and no later complete pair has flag `k` (the last occurrence
wins); and `k` is a key of the mapping exactly when it is the flag of at least
one complete pair. -/
theorem parseArguments_last_pair_wins (argv : List String) (k : String) :
    (∀ v : String, StdMap.find (parseArguments argv) k = some v ↔
      ∃ j : Nat, argv.tail[2 * j]? = some k ∧ argv.tail[2 * j + 1]? = some v ∧
        ∀ j' : Nat, j < j' → argv.tail[2 * j' + 1]? ≠ none → argv.tail[2 * j']? ≠ some k) ∧
    (k ∈ StdMap.keys (parseArguments argv) ↔
      ∃ j : Nat, argv.tail[2 * j]? = some k ∧ argv.tail[2 * j + 1]? ≠ none) := by
  rw [parseArguments_eq, List.drop_one]
  constructor
  · intro v
    rw [find_assignAll_nil_eq_some]
    constructor
    · rintro ⟨j, hj, hlast⟩
      obtain ⟨h1, h2⟩ := (pairsOf_getElem? _ j k v).mp hj
      refine ⟨j, h1, h2, ?_⟩
      intro j' hlt hv hk
      obtain ⟨v', hv'⟩ := Option.ne_none_iff_exists'.mp hv
      exact hlast j' (k, v') hlt ((pairsOf_getElem? _ j' k v').mpr ⟨hk, hv'⟩) rfl
    · rintro ⟨j, h1, h2, hlast⟩
      refine ⟨j, (pairsOf_getElem? _ j k v).mpr ⟨h1, h2⟩, ?_⟩
      rintro j' ⟨a, b⟩ hlt hq hk
      obtain ⟨h3, h4⟩ := (pairsOf_getElem? _ j' a b).mp hq
      simp only at hk
      subst hk
      exact hlast j' hlt (by simp [h4]) h3
  · rw [mem_keys_iff, Ne, find_assignAll_nil_eq_none]
    constructor
    · intro h
      by_contra hcon
      apply h
      rintro ⟨a, b⟩ hp hk
      obtain ⟨j, hj⟩ := List.mem_iff_getElem?.mp hp
      obtain ⟨h3, h4⟩ := (pairsOf_getElem? _ j a b).mp hj
      simp only at hk
      subst hk
      exact hcon ⟨j, h3, by simp [h4]⟩
    · rintro ⟨j, h1, h2⟩ hall
      obtain ⟨v', hv'⟩ := Option.ne_none_iff_exists'.mp h2
      have := (pairsOf_getElem? _ j k v').mpr ⟨h1, hv'⟩
      exact hall (k, v') (List.getElem?_mem this) rfl

theorem pairsOf_tokensOf (ps : List (String × String)) : pairsOf (tokensOf ps) = ps := by
  induction ps with
  | nil => rfl
  | cons p ps ih => obtain ⟨a, b⟩ := p; simp [tokensOf, pairsOf, ih]

theorem pairsOf_tokensOf_trailing (ps : List (String × String)) (t : String) :
    pairsOf (tokensOf ps ++ [t]) = ps := by
  induction ps with
  | nil => rfl
  | cons p ps ih => obtain ⟨a, b⟩ := p; simp [tokensOf, pairsOf, ih]

theorem keys_assign (m : StdMap) (k v : String) :
    StdMap.keys (StdMap.assign m k v) =
      if k ∈ StdMap.keys m then StdMap.keys m else StdMap.keys m ++ [k] := by
  induction m with
  | nil => simp [StdMap.assign, StdMap.keys]
  | cons p m ih =>
    obtain ⟨a, b⟩ := p
    by_cases h : a = k
    · simp [StdMap.assign, StdMap.keys, h]
    · have h' : ¬ k = a := fun e => h e.symm
      simp only [StdMap.keys] at ih
      simp only [StdMap.assign, h, if_false, StdMap.keys, List.map_cons, List.mem_cons, h',
        false_or, ih]
      split <;> simp

theorem keys_assignAll (m : StdMap) (ps : List (String × String))
    (hm : (StdMap.keys m).Nodup) :
    (StdMap.keys (assignAll m ps)).Nodup ∧
      (StdMap.keys (assignAll m ps)).toFinset =
        (StdMap.keys m).toFinset ∪ (ps.map Prod.fst).toFinset := by
  induction ps generalizing m with
  | nil => simp [assignAll, hm]
  | cons p ps ih =>
    have hm' : (StdMap.keys (StdMap.assign m p.1 p.2)).Nodup := by
      rw [keys_assign]
      split
      · exact hm
      · rename_i hk
        exact List.Nodup.append hm (List.nodup_singleton _) (by simpa using hk)
    obtain ⟨h1, h2⟩ := ih (StdMap.assign m p.1 p.2) hm'
    have e : assignAll m (p :: ps) = assignAll (StdMap.assign m p.1 p.2) ps := rfl
    rw [e]
    refine ⟨h1, ?_⟩
    rw [h2, keys_assign]
    ext x
    split <;> rename_i hk <;> simp <;> aesop

theorem size_assignAll_nil (ps : List (String × String)) :
    StdMap.size (assignAll [] ps) = (ps.map Prod.fst).dedup.length := by
  obtain ⟨h1, h2⟩ := keys_assignAll [] ps (by simp [StdMap.keys])
  have : StdMap.size (assignAll [] ps) = (StdMap.keys (assignAll [] ps)).length := by
    simp [StdMap.size, StdMap.keys]
  rw [this, ← List.toFinset_card_of_nodup h1, h2, ← List.card_toFinset]
  simp [StdMap.keys]

/-- C3 (as amended): for a program name followed by the tokens of `N` flag/value
pairs, `parseArguments` returns a mapping with one entry per distinct flag: as
many entries as the flags have distinct values, at most `N`, and exactly `N`
precisely when the `N` flags are pairwise distinct. -/
theorem parseArguments_size_distinct_flags (prog : String) (pairs : List (String × String)) :
    StdMap.size (parseArguments (prog :: tokensOf pairs)) = (pairs.map Prod.fst).dedup.length ∧
    StdMap.size (parseArguments (prog :: tokensOf pairs)) ≤ pairs.length ∧
    (StdMap.size (parseArguments (prog :: tokensOf pairs)) = pairs.length ↔
      (pairs.map Prod.fst).Nodup) := by
  have hs : StdMap.size (parseArguments (prog :: tokensOf pairs)) =
      (pairs.map Prod.fst).dedup.length := by
    rw [parseArguments_eq]
    simp only [List.drop_succ_cons, List.drop_zero, pairsOf_tokensOf]
    exact size_assignAll_nil pairs
  have hsub := List.dedup_sublist (pairs.map Prod.fst)
  have hle := hsub.length_le
  rw [List.length_map] at hle
  refine ⟨hs, by omega, ?_⟩
  rw [hs]
  constructor
  · intro h
    have : (pairs.map Prod.fst).dedup = pairs.map Prod.fst :=
      hsub.eq_of_length (by rw [h, List.length_map])
    exact List.dedup_eq_self.mp this
  · intro h
    rw [List.dedup_eq_self.mpr h, List.length_map]

/-- C3 (as stated) fails: two pairs with the same flag yield one entry, not two. -/
theorem parseArguments_size_repeated_flag :
    StdMap.size (parseArguments ("prog" :: tokensOf [("--a", "1"), ("--a", "2")])) ≠
      [("--a", "1"), ("--a", "2")].length := by
  rw [parseArguments_eq]
  decide

/-- C5 (as amended): a trailing flag without a value adds nothing: the mapping
is the one of the token sequence without it, so the trailing flag is a key of
the mapping exactly when it is also the flag of one of the complete pairs. -/
theorem parseArguments_trailing_flag_dropped (prog : String) (pairs : List (String × String))
    (t : String) :
    parseArguments (prog :: (tokensOf pairs ++ [t])) = parseArguments (prog :: tokensOf pairs) ∧
    (t ∈ StdMap.keys (parseArguments (prog :: (tokensOf pairs ++ [t]))) ↔
      t ∈ pairs.map Prod.fst) := by
  have e : parseArguments (prog :: (tokensOf pairs ++ [t])) = assignAll [] pairs := by
    rw [parseArguments_eq]
    simp only [List.drop_succ_cons, List.drop_zero, pairsOf_tokensOf_trailing]
  have e2 : parseArguments (prog :: tokensOf pairs) = assignAll [] pairs := by
    rw [parseArguments_eq]
    simp only [List.drop_succ_cons, List.drop_zero, pairsOf_tokensOf]
  refine ⟨by rw [e, e2], ?_⟩
  rw [e, mem_keys_iff, Ne, find_assignAll_nil_eq_none]
  simp

/-- C5 (as stated) fails: a trailing flag that repeats the flag of a complete
pair is a key of the mapping. -/
theorem parseArguments_trailing_flag_repeated :
    "--a" ∈ StdMap.keys (parseArguments ("prog" :: (tokensOf [("--a", "1")] ++ ["--a"]))) := by
  rw [parseArguments_eq]
  decide

/-! ## Properties of `sendRequest` and `main` -/

/-- C1: at every failure point of `sendRequest` after the socket exists (address
parse, connect, handshake, write, read) the error of that point is thrown, and
in the calls made before it the socket, the TLS context and, where `SSL_new`
has run, the TLS session are each released exactly once: every handle ends
released (none live, none released twice), with one `SSL_CTX_free`, one `close`
or `closesocket`, and as many `SSL_free` as `SSL_new`. -/
theorem sendRequest_failure_releases_once (lib : JsonCpp) (env : Env) (serverIp : String)
    (serverPort : Int) (payload : JsonValue) (fp : FailurePoint) (h : failsAt env fp) :
    (sendRequest lib env serverIp serverPort payload).outcome = Outcome.threw (errorText fp) ∧
    handlesAfter (sendRequest lib env serverIp serverPort payload).trace =
      ⟨Handle.released, Handle.released,
        if sessionCreated fp then Handle.released else Handle.unacquired⟩ ∧
    (sendRequest lib env serverIp serverPort payload).trace.count Ev.SSL_CTX_free = 1 ∧
    (sendRequest lib env serverIp serverPort payload).trace.count Ev.close +
      (sendRequest lib env serverIp serverPort payload).trace.count Ev.closesocket = 1 ∧
    (sendRequest lib env serverIp serverPort payload).trace.count Ev.SSL_free =
      (if sessionCreated fp then 1 else 0) ∧
    (sendRequest lib env serverIp serverPort payload).trace.count Ev.SSL_new =
      (if sessionCreated fp then 1 else 0) := by
  cases fp <;> simp only [failsAt, reachesRead, reachesWrite, reachesConnect] at h
  · obtain ⟨h1, h2, h3⟩ := h
    cases hw : env.win32 <;>
      simp [sendRequest, h1, h2, not_lt.mpr h2, h3, hw, closeSocket, wsaStartup, wsaCleanup,
        init_openssl, create_context, errorText, sessionCreated, handlesAfter, Handles.step, Handle.acquire,
        Handle.release]
  · obtain ⟨⟨h1, h2, h3⟩, h4⟩ := h
    cases hw : env.win32 <;>
      simp [sendRequest, h1, h2, not_lt.mpr h2, not_le.mpr h3, h4, hw, closeSocket, wsaStartup,
        wsaCleanup, init_openssl, create_context, errorText, sessionCreated, handlesAfter, Handles.step,
        Handle.acquire, Handle.release]
  · obtain ⟨⟨h1, h2, h3⟩, h4, h5⟩ := h
    cases hw : env.win32 <;>
      simp [sendRequest, h1, h2, not_lt.mpr h2, not_le.mpr h3, not_lt.mpr h4, h5, hw, closeSocket,
        wsaStartup, wsaCleanup, init_openssl, create_context, errorText, sessionCreated, handlesAfter,
        Handles.step, Handle.acquire, Handle.release]
  · obtain ⟨⟨⟨h1, h2, h3⟩, h4, h5⟩, h6⟩ := h
    cases hw : env.win32 <;>
      simp [sendRequest, h1, h2, not_lt.mpr h2, not_le.mpr h3, not_lt.mpr h4, not_le.mpr h5, h6,
        hw, closeSocket, wsaStartup, wsaCleanup, init_openssl, create_context, errorText, sessionCreated,
        handlesAfter, Handles.step, Handle.acquire, Handle.release]
  · obtain ⟨⟨⟨⟨h1, h2, h3⟩, h4, h5⟩, h6⟩, h7⟩ := h
    cases hw : env.win32 <;>
      simp [sendRequest, h1, h2, not_lt.mpr h2, not_le.mpr h3, not_lt.mpr h4, not_le.mpr h5,
        not_le.mpr h6, h7, hw, closeSocket, wsaStartup, wsaCleanup, init_openssl, create_context, errorText,
        sessionCreated, handlesAfter, Handles.step, Handle.acquire, Handle.release]

/-- C1 at a concrete run: a Windows build in which `SSL_read` returns -1. -/
theorem sendRequest_failure_releases_once_witness :
    failsAt envReadFails FailurePoint.read ∧
    (sendRequest exampleLib envReadFails "127.0.0.1" 8443 JsonValue.null).outcome = Outcome.threw (errorText FailurePoint.read) ∧
    handlesAfter (sendRequest exampleLib envReadFails "127.0.0.1" 8443 JsonValue.null).trace =
      ⟨Handle.released, Handle.released,
        if sessionCreated FailurePoint.read then Handle.released else Handle.unacquired⟩ ∧
    (sendRequest exampleLib envReadFails "127.0.0.1" 8443 JsonValue.null).trace.count Ev.SSL_CTX_free = 1 ∧
    (sendRequest exampleLib envReadFails "127.0.0.1" 8443 JsonValue.null).trace.count Ev.close +
      (sendRequest exampleLib envReadFails "127.0.0.1" 8443 JsonValue.null).trace.count Ev.closesocket = 1 ∧
    (sendRequest exampleLib envReadFails "127.0.0.1" 8443 JsonValue.null).trace.count Ev.SSL_free =
      (if sessionCreated FailurePoint.read then 1 else 0) ∧
    (sendRequest exampleLib envReadFails "127.0.0.1" 8443 JsonValue.null).trace.count Ev.SSL_new =
      (if sessionCreated FailurePoint.read then 1 else 0) :=
  ⟨by decide, sendRequest_failure_releases_once exampleLib envReadFails "127.0.0.1" 8443
    JsonValue.null FailurePoint.read (by decide)⟩


/-- C2 at a failing input: when the handshake fails the releases are socket,
session, context, in that order, and `EVP_cleanup` (the body of
`cleanup_openssl`) is not called; the success path releases session, socket,
context and the global tables. -/
theorem sendRequest_handshake_failure_releases :
    releaseTrace (sendRequest exampleLib envHandshakeFails "127.0.0.1" 8443 JsonValue.null).trace =
      [Resource.socket, Resource.session, Resource.context] ∧
    Ev.EVP_cleanup ∉ (sendRequest exampleLib envHandshakeFails "127.0.0.1" 8443 JsonValue.null).trace ∧
    releaseTrace (sendRequest exampleLib envAllSucceed "127.0.0.1" 8443 JsonValue.null).trace =
      [Resource.session, Resource.socket, Resource.context, Resource.tables] := by
  decide

theorem takeWhile_append_stop {α : Type} (p : α → Bool) (l1 l2 : List α) (a : α)
    (ha : p a = false) : (l1 ++ a :: l2).takeWhile p = l1.takeWhile p := by
  induction l1 with
  | nil => simp [List.takeWhile, ha]
  | cons b l1 ih =>
    simp only [List.cons_append, List.takeWhile_cons, ih]

theorem bufferAfterRead_take (env : Env) (n : Nat) (hn : (n : Int) = env.sslReadRes)
    (hle : n ≤ bufferSize) :
    (bufferAfterRead env).take n = (List.range n).map env.received := by
  unfold bufferAfterRead
  rw [← List.map_take, List.take_range, Nat.min_eq_left hle]
  apply List.map_congr_left
  intro i hi
  have : Int.ofNat i < env.sslReadRes := by
    rw [← hn]
    exact Int.ofNat_lt.mpr (List.mem_range.mp hi)
  show (if Int.ofNat i < env.sslReadRes then env.received i else env.stack i) = env.received i
  rw [if_pos this]

theorem cString_after_store (env : Env) (n : Nat) (hn : (n : Int) = env.sslReadRes)
    (hlt : n < bufferSize) :
    cString ((bufferAfterRead env).set n 0) =
      ((List.range n).map env.received).takeWhile (fun b => b != 0) := by
  have hlen : n < (bufferAfterRead env).length := by simp [bufferAfterRead, hlt]
  rw [List.set_eq_take_append_cons_drop, if_pos hlen, bufferAfterRead_take env n hn (le_of_lt hlt)]
  exact takeWhile_append_stop _ _ _ _ (by simp)

theorem join_map_toString_aux (l : List Char) (acc : String) :
    List.foldl (fun r s => r ++ s) acc (l.map Char.toString) = acc ++ String.mk l := by
  induction l generalizing acc with
  | nil => apply String.ext; simp
  | cons c l ih =>
    simp only [List.map_cons, List.foldl_cons, ih]
    apply String.ext
    simp [String.data_append, Char.toString, String.singleton]

/-- A string of printable ASCII characters without quote and backslash is
quoted as it stands. -/
theorem valueToQuotedString_plain (lib : JsonCpp) (s : String)
    (h : ∀ c ∈ s.toList, 32 ≤ c.toNat ∧ c.toNat < 128 ∧ c ≠ Char.ofNat 34 ∧ c ≠ Char.ofNat 92) :
    valueToQuotedString lib s = "\"" ++ s ++ "\"" := by
  have hmap : s.toList.map (escapeChar lib) = s.toList.map Char.toString := by
    apply List.map_congr_left
    intro c hc
    obtain ⟨h1, h2, h3, h4⟩ := h c hc
    have e8 : c ≠ Char.ofNat 8 := by rintro rfl; revert h1; decide
    have e12 : c ≠ Char.ofNat 12 := by rintro rfl; revert h1; decide
    have e10 : c ≠ Char.ofNat 10 := by rintro rfl; revert h1; decide
    have e13 : c ≠ Char.ofNat 13 := by rintro rfl; revert h1; decide
    have e9 : c ≠ Char.ofNat 9 := by rintro rfl; revert h1; decide
    have hr : ¬ (c.toNat < 32 ∨ 128 ≤ c.toNat) := by omega
    simp only [escapeChar, h3, h4, e8, e12, e10, e13, e9, hr, if_false]
  unfold valueToQuotedString
  rw [hmap, String.join, join_map_toString_aux]
  apply String.ext
  simp [String.data_append]

/-- No path that throws calls `EVP_cleanup`. -/
theorem sendRequest_failure_skips_cleanup (lib : JsonCpp) (env : Env) (serverIp : String)
    (serverPort : Int) (payload : JsonValue) (what : String)
    (h : (sendRequest lib env serverIp serverPort payload).outcome = Outcome.threw what) :
    Ev.EVP_cleanup ∉ (sendRequest lib env serverIp serverPort payload).trace := by
  revert h
  unfold sendRequest
  cases hw : env.win32 <;> cases hc : env.ctxCreated <;>
    simp only [Bool.not_true, Bool.not_false, if_true, if_false, Bool.false_eq_true] <;>
    (try split_ifs) <;>
    simp [closeSocket, wsaStartup, wsaCleanup, init_openssl, create_context, cleanup_openssl, hw]

theorem subscript_fst (m : StdMap) (k : String) :
    (StdMap.subscript m k).1 = (StdMap.find m k).getD "" := by
  unfold StdMap.subscript
  cases StdMap.find m k <;> rfl

theorem find_subscript_snd (m : StdMap) (k k' : String) (h : k ≠ k') :
    StdMap.find (StdMap.subscript m k).2 k' = StdMap.find m k' := by
  unfold StdMap.subscript
  cases StdMap.find m k with
  | none => simp [find_assign, h]
  | some v => rfl

theorem main_eq (lib : JsonCpp) (env : Env) (argv : List String) :
    main lib env argv =
      match stoi ((StdMap.find (parseArguments argv) "--server-port").getD "") with
      | none => caught [] [] [] lib.stoiWhat
      | some serverPort =>
        mainBody lib env ((StdMap.find (parseArguments argv) "--server-ip").getD "") serverPort
          ((StdMap.find (parseArguments argv) "--email").getD "")
          ((StdMap.find (parseArguments argv) "--password").getD "") := by
  unfold main
  simp only [subscript_fst]
  rw [find_subscript_snd _ "--server-ip" "--server-port" (by decide),
    find_subscript_snd _ "--server-port" "--email" (by decide),
    find_subscript_snd _ "--server-ip" "--email" (by decide),
    find_subscript_snd _ "--email" "--password" (by decide),
    find_subscript_snd _ "--server-port" "--password" (by decide),
    find_subscript_snd _ "--server-ip" "--password" (by decide)]

theorem mainBody_rejects (lib : JsonCpp) (env : Env) (serverIp : String) (serverPort : Int)
    (email password : String)
    (h : serverIp = "" ∨ serverPort = 0 ∨ email = "" ∨ password = "") :
    (mainBody lib env serverIp serverPort email password).ending = ProcessEnd.returned 1 ∧
    (mainBody lib env serverIp serverPort email password).calls = [] ∧
    (mainBody lib env serverIp serverPort email password).trace = [] := by
  unfold mainBody
  rw [if_pos h]
  exact ⟨rfl, rfl, rfl⟩

/-- C6 (as amended): when a required field is missing or empty (no value or an
empty value for `--server-ip`, `--email` or `--password`, or a `--server-port`
that is missing, has no leading integer that `std::stoi` reads as an `int`, or
reads as 0), `main` returns 1 without calling `sendRequest` and without any
external call. -/
theorem main_rejects_missing_field (lib : JsonCpp) (env : Env) (argv : List String)
    (h : requiredMissing (parseArguments argv)) :
    (main lib env argv).ending = ProcessEnd.returned 1 ∧
    (main lib env argv).calls = [] ∧
    (main lib env argv).trace = [] := by
  rw [main_eq]
  cases hs : stoi ((StdMap.find (parseArguments argv) "--server-port").getD "") with
  | none => exact ⟨rfl, rfl, rfl⟩
  | some serverPort =>
    apply mainBody_rejects
    rcases h with h | h | h | h
    · left
      rcases h with h | h <;> simp [h]
    · right; right; left
      rcases h with h | h <;> simp [h]
    · right; right; right
      rcases h with h | h <;> simp [h]
    · right; left
      unfold badPort at h
      cases hf : StdMap.find (parseArguments argv) "--server-port" with
      | none =>
        rw [hf] at hs
        simp only [Option.getD] at hs
        have : stoi "" = none := by decide
        rw [this] at hs
        cases hs
      | some s =>
        rw [hf] at h hs
        simp only [Option.getD] at hs
        rcases h with h | h
        · rw [h] at hs; cases hs
        · rw [h] at hs; cases hs; rfl

/-- C6 (as amended) at a concrete command line: `--password` is omitted. -/
theorem main_rejects_missing_field_witness :
    requiredMissing (parseArguments
      ["client", "--server-ip", "127.0.0.1", "--server-port", "8443", "--email", "a@b.com"]) ∧
    ((main exampleLib envAllSucceed
      ["client", "--server-ip", "127.0.0.1", "--server-port", "8443", "--email", "a@b.com"]).ending
        = ProcessEnd.returned 1 ∧
    (main exampleLib envAllSucceed
      ["client", "--server-ip", "127.0.0.1", "--server-port", "8443", "--email", "a@b.com"]).calls
        = [] ∧
    (main exampleLib envAllSucceed
      ["client", "--server-ip", "127.0.0.1", "--server-port", "8443", "--email", "a@b.com"]).trace
        = []) :=
  ⟨by rw [parseArguments_eq]; decide,
    main_rejects_missing_field exampleLib envAllSucceed _ (by rw [parseArguments_eq]; decide)⟩

/-- C6 (as stated) fails: the port text `12.5` is not an integer numeral, yet
`std::stoi` reads its leading `12`, the validation passes, and `main` calls
`sendRequest` once, connects to port 12 and returns 0. -/
theorem main_accepts_port_with_trailing_text :
    isIntegerText "12.5" = false ∧
    (main exampleLib envAllSucceed ["client", "--server-ip", "127.0.0.1", "--server-port",
      "12.5", "--email", "a@b.com", "--password", "secret"]).ending = ProcessEnd.returned 0 ∧
    (main exampleLib envAllSucceed ["client", "--server-ip", "127.0.0.1", "--server-port",
      "12.5", "--email", "a@b.com", "--password", "secret"]).calls.length = 1 ∧
    connectsOf (main exampleLib envAllSucceed ["client", "--server-ip", "127.0.0.1",
      "--server-port", "12.5", "--email", "a@b.com", "--password", "secret"]).trace =
        [("127.0.0.1", 12)] := by
  rw [main_eq, parseArguments_eq]
  decide

/-- The payload of `main` in closed form. -/
theorem buildPayload_eq (email password : String) :
    buildPayload email password =
      some (JsonValue.obj
        (JsonMembers.cons "arguments"
          (JsonValue.obj
            (JsonMembers.cons "email" (JsonValue.str email)
              (JsonMembers.cons "password" (JsonValue.str password) JsonMembers.nil)))
          (JsonMembers.cons "command" (JsonValue.str "login") JsonMembers.nil))) := rfl

theorem mainBody_calls (lib : JsonCpp) (env : Env) (serverIp : String) (serverPort : Int)
    (email password : String) (payload : JsonValue)
    (h : ¬ (serverIp = "" ∨ serverPort = 0 ∨ email = "" ∨ password = ""))
    (hp : buildPayload email password = some payload) :
    (mainBody lib env serverIp serverPort email password).calls =
        [(serverIp, serverPort, payload)] ∧
    (mainBody lib env serverIp serverPort email password).trace =
        (sendRequest lib env serverIp serverPort payload).trace := by
  unfold mainBody
  rw [if_neg h]
  simp only [hp]
  cases (sendRequest lib env serverIp serverPort payload).outcome with
  | returned r =>
    simp only
    cases lib.parseFromStream r <;> exact ⟨rfl, rfl⟩
  | threw w => exact ⟨rfl, rfl⟩
  | exited c => exact ⟨rfl, rfl⟩
  | undefined => exact ⟨rfl, rfl⟩

/-- C7: for non-empty host, email and password and a nonzero port, `main` calls
`sendRequest` once, with an envelope whose member `command` is the string
`login`, whose member `arguments` has `email` and `password` equal to the
supplied strings, and which has no other members at either level. -/
theorem main_payload_is_login_envelope (lib : JsonCpp) (env : Env) (argv : List String)
    (host portStr email password : String) (port : Int)
    (hhost : StdMap.find (parseArguments argv) "--server-ip" = some host)
    (hportStr : StdMap.find (parseArguments argv) "--server-port" = some portStr)
    (hemail : StdMap.find (parseArguments argv) "--email" = some email)
    (hpassword : StdMap.find (parseArguments argv) "--password" = some password)
    (hport : stoi portStr = some port)
    (hhost0 : host ≠ "") (hport0 : port ≠ 0) (hemail0 : email ≠ "") (hpassword0 : password ≠ "") :
    ∃ payload arguments : JsonValue,
      (main lib env argv).calls = [(host, port, payload)] ∧
      payload.member "command" = some (JsonValue.str "login") ∧
      payload.member "arguments" = some arguments ∧
      arguments.member "email" = some (JsonValue.str email) ∧
      arguments.member "password" = some (JsonValue.str password) ∧
      payload.memberNames = ["arguments", "command"] ∧
      arguments.memberNames = ["email", "password"] := by
  refine ⟨JsonValue.obj
      (JsonMembers.cons "arguments"
        (JsonValue.obj
          (JsonMembers.cons "email" (JsonValue.str email)
            (JsonMembers.cons "password" (JsonValue.str password) JsonMembers.nil)))
        (JsonMembers.cons "command" (JsonValue.str "login") JsonMembers.nil)),
    JsonValue.obj
      (JsonMembers.cons "email" (JsonValue.str email)
        (JsonMembers.cons "password" (JsonValue.str password) JsonMembers.nil)),
    ?_, rfl, rfl, rfl, rfl, rfl, rfl⟩
  rw [main_eq, hhost, hportStr, hemail, hpassword]
  simp only [Option.getD, hport]
  exact (mainBody_calls lib env host port email password _ (by simp [*])
    (buildPayload_eq email password)).1

/-- C7 at a concrete command line. -/
theorem main_payload_is_login_envelope_witness :
    (StdMap.find (parseArguments ["client", "--server-ip", "127.0.0.1", "--server-port", "8443",
        "--email", "a@b.com", "--password", "secret"]) "--server-ip" = some "127.0.0.1" ∧
      StdMap.find (parseArguments ["client", "--server-ip", "127.0.0.1", "--server-port", "8443",
        "--email", "a@b.com", "--password", "secret"]) "--server-port" = some "8443" ∧
      StdMap.find (parseArguments ["client", "--server-ip", "127.0.0.1", "--server-port", "8443",
        "--email", "a@b.com", "--password", "secret"]) "--email" = some "a@b.com" ∧
      StdMap.find (parseArguments ["client", "--server-ip", "127.0.0.1", "--server-port", "8443",
        "--email", "a@b.com", "--password", "secret"]) "--password" = some "secret" ∧
      stoi "8443" = some 8443 ∧
      "127.0.0.1" ≠ "" ∧ (8443 : Int) ≠ 0 ∧ "a@b.com" ≠ "" ∧ "secret" ≠ "") ∧
    ∃ payload arguments : JsonValue,
      (main exampleLib envAllSucceed ["client", "--server-ip", "127.0.0.1", "--server-port",
        "8443", "--email", "a@b.com", "--password", "secret"]).calls =
          [("127.0.0.1", 8443, payload)] ∧
      payload.member "command" = some (JsonValue.str "login") ∧
      payload.member "arguments" = some arguments ∧
      arguments.member "email" = some (JsonValue.str "a@b.com") ∧
      arguments.member "password" = some (JsonValue.str "secret") ∧
      payload.memberNames = ["arguments", "command"] ∧
      arguments.memberNames = ["email", "password"] :=
  ⟨⟨by rw [parseArguments_eq]; decide, by rw [parseArguments_eq]; decide,
      by rw [parseArguments_eq]; decide, by rw [parseArguments_eq]; decide, by decide,
      by decide, by decide, by decide, by decide⟩,
    main_payload_is_login_envelope exampleLib envAllSucceed _ "127.0.0.1" "8443" "a@b.com"
      "secret" 8443 (by rw [parseArguments_eq]; decide) (by rw [parseArguments_eq]; decide)
      (by rw [parseArguments_eq]; decide) (by rw [parseArguments_eq]; decide) (by decide)
      (by decide) (by decide) (by decide) (by decide)⟩

/-- C8: once the write has succeeded, `sendRequest` issues exactly one
`SSL_read`, asking for 4095 bytes of the 4096-byte buffer.  For a read result
`n` with `0 ≤ n ≤ 4095` the zero byte is stored once, at index `n`, inside the
buffer, and the call returns the received bytes up to the first zero, at most
`n` and so at most 4095 of them.  For a negative read result nothing is stored
and `Failed to receive data` is thrown. -/
theorem sendRequest_single_bounded_read (lib : JsonCpp) (env : Env) (serverIp : String)
    (serverPort : Int) (payload : JsonValue) (h : reachesRead env) :
    readsOf (sendRequest lib env serverIp serverPort payload).trace = [4095] ∧
    4095 < bufferSize ∧
    (∀ n : Nat, (n : Int) = env.sslReadRes → n ≤ 4095 →
      storesOf (sendRequest lib env serverIp serverPort payload).trace = [(n : Int)] ∧
      n < bufferSize ∧
      (sendRequest lib env serverIp serverPort payload).outcome =
        Outcome.returned (((List.range n).map env.received).takeWhile (fun b => b != 0)) ∧
      (((List.range n).map env.received).takeWhile (fun b => b != 0)).length ≤ n ∧
      (((List.range n).map env.received).takeWhile (fun b => b != 0)).length ≤ 4095) ∧
    (env.sslReadRes < 0 →
      storesOf (sendRequest lib env serverIp serverPort payload).trace = [] ∧
      (sendRequest lib env serverIp serverPort payload).outcome =
        Outcome.threw "Failed to receive data") := by
  obtain ⟨⟨⟨h1, h2, h3⟩, h4, h5⟩, h6⟩ := h
  refine ⟨?_, by decide, ?_, ?_⟩
  · by_cases hr : env.sslReadRes < 0
    · cases hw : env.win32 <;>
        simp [sendRequest, h1, not_lt.mpr h2, not_le.mpr h3, not_lt.mpr h4, not_le.mpr h5,
          not_le.mpr h6, hr, hw, closeSocket, wsaStartup, wsaCleanup, init_openssl, create_context,
          cleanup_openssl, readsOf, bufferSize]
    · by_cases hb : env.sslReadRes < 4096 <;> cases hw : env.win32 <;>
        simp [sendRequest, h1, not_lt.mpr h2, not_le.mpr h3, not_lt.mpr h4, not_le.mpr h5,
          not_le.mpr h6, hr, hb, hw, closeSocket, wsaStartup, wsaCleanup, init_openssl, create_context,
          cleanup_openssl, readsOf, bufferSize]
  · intro n hn hle
    have hr : ¬ env.sslReadRes < 0 := by omega
    have hlt : n < bufferSize := by unfold bufferSize; omega
    have hb : env.sslReadRes < 4096 := by unfold bufferSize at hlt; omega
    have hnat : env.sslReadRes.toNat = n := by omega
    have hc := cString_after_store env n hn hlt
    have hlen := (List.takeWhile_sublist (l := (List.range n).map env.received)
      (fun b => b != 0)).length_le
    simp only [List.length_map, List.length_range] at hlen
    refine ⟨?_, hlt, ?_, hlen, by omega⟩
    · cases hw : env.win32 <;>
        simp [sendRequest, h1, not_lt.mpr h2, not_le.mpr h3, not_lt.mpr h4, not_le.mpr h5,
          not_le.mpr h6, hr, hb, hw, closeSocket, wsaStartup, wsaCleanup, init_openssl, create_context,
          cleanup_openssl, storesOf, hn, bufferSize]
    · rw [← hc]
      simp [sendRequest, h1, not_lt.mpr h2, not_le.mpr h3, not_lt.mpr h4, not_le.mpr h5,
        not_le.mpr h6, hr, hb, hnat, bufferSize]
  · intro hr
    cases hw : env.win32 <;>
      simp [sendRequest, h1, not_lt.mpr h2, not_le.mpr h3, not_lt.mpr h4, not_le.mpr h5,
        not_le.mpr h6, hr, hw, closeSocket, wsaStartup, wsaCleanup, init_openssl, create_context,
        cleanup_openssl, storesOf]

/-- C8 at a concrete run: the peer sends the two bytes of `ok`. -/
theorem sendRequest_single_bounded_read_witness :
    reachesRead envAllSucceed ∧
    (readsOf (sendRequest exampleLib envAllSucceed "127.0.0.1" 8443 JsonValue.null).trace =
        [4095] ∧
    4095 < bufferSize ∧
    (∀ n : Nat, (n : Int) = envAllSucceed.sslReadRes → n ≤ 4095 →
      storesOf (sendRequest exampleLib envAllSucceed "127.0.0.1" 8443 JsonValue.null).trace =
        [(n : Int)] ∧
      n < bufferSize ∧
      (sendRequest exampleLib envAllSucceed "127.0.0.1" 8443 JsonValue.null).outcome =
        Outcome.returned
          (((List.range n).map envAllSucceed.received).takeWhile (fun b => b != 0)) ∧
      (((List.range n).map envAllSucceed.received).takeWhile (fun b => b != 0)).length ≤ n ∧
      (((List.range n).map envAllSucceed.received).takeWhile (fun b => b != 0)).length ≤ 4095) ∧
    (envAllSucceed.sslReadRes < 0 →
      storesOf (sendRequest exampleLib envAllSucceed "127.0.0.1" 8443 JsonValue.null).trace =
        [] ∧
      (sendRequest exampleLib envAllSucceed "127.0.0.1" 8443 JsonValue.null).outcome =
        Outcome.threw "Failed to receive data")) :=
  ⟨by decide, sendRequest_single_bounded_read exampleLib envAllSucceed "127.0.0.1" 8443
    JsonValue.null (by decide)⟩

theorem writesOf_sendRequest (lib : JsonCpp) (env : Env) (serverIp : String)
    (serverPort : Int) (payload : JsonValue) (h : reachesWrite env) :
    writesOf (sendRequest lib env serverIp serverPort payload).trace =
      [writeString lib payload] := by
  obtain ⟨⟨h1, h2, h3⟩, h4, h5⟩ := h
  unfold sendRequest
  simp only [h1, not_lt.mpr h2, not_le.mpr h3, not_lt.mpr h4, not_le.mpr h5, Bool.not_true,
    if_false, Bool.false_eq_true]
  cases hw : env.win32 <;> split_ifs <;>
    simp [writesOf, closeSocket, wsaStartup, wsaCleanup, init_openssl, create_context,
      cleanup_openssl, hw, h1]

theorem connectsOf_sendRequest (lib : JsonCpp) (env : Env) (serverIp : String)
    (serverPort : Int) (payload : JsonValue) (h : reachesConnect env) :
    connectsOf (sendRequest lib env serverIp serverPort payload).trace =
      [(serverIp, htons serverPort)] := by
  obtain ⟨h1, h2, h3⟩ := h
  unfold sendRequest
  simp only [h1, not_lt.mpr h2, not_le.mpr h3, Bool.not_true, if_false, Bool.false_eq_true]
  cases hw : env.win32 <;> split_ifs <;>
    simp [connectsOf, closeSocket, wsaStartup, wsaCleanup, init_openssl, create_context,
      cleanup_openssl, hw, h1]

theorem writeWithIndent_true (s : String) (d : Nat) (v : String) :
    Writer.writeWithIndent ⟨s, true, d⟩ v = ⟨s ++ v, false, d⟩ := rfl

theorem writeWithIndent_false (s : String) (d : Nat) (v : String) :
    Writer.writeWithIndent ⟨s, false, d⟩ v =
      ⟨s ++ "\n" ++ String.join (List.replicate d "\t") ++ v, false, d⟩ := rfl

theorem pushValue_mk (s : String) (i : Bool) (d : Nat) (v : String) :
    Writer.pushValue ⟨s, i, d⟩ v = ⟨s ++ v, i, d⟩ := rfl

theorem put_mk (s : String) (i : Bool) (d : Nat) (v : String) :
    Writer.put ⟨s, i, d⟩ v = ⟨s ++ v, i, d⟩ := rfl

theorem indent_mk (s : String) (i : Bool) (d : Nat) :
    Writer.indent ⟨s, i, d⟩ = ⟨s, i, d + 1⟩ := rfl

theorem unindent_mk (s : String) (i : Bool) (d : Nat) :
    Writer.unindent ⟨s, i, d⟩ = ⟨s, i, d - 1⟩ := rfl

/-- The document written for the login payload. -/
theorem writeString_login (lib : JsonCpp) (email password : String) :
    writeString lib (JsonValue.obj
        (JsonMembers.cons "arguments"
          (JsonValue.obj
            (JsonMembers.cons "email" (JsonValue.str email)
              (JsonMembers.cons "password" (JsonValue.str password) JsonMembers.nil)))
          (JsonMembers.cons "command" (JsonValue.str "login") JsonMembers.nil))) =
      "\x7b\n\t\"arguments\" : \n\t\x7b\n\t\t\"email\" : " ++ valueToQuotedString lib email ++
        ",\n\t\t\"password\" : " ++ valueToQuotedString lib password ++
        "\n\t\x7d,\n\t\"command\" : \"login\"\n\x7d" := by
  simp only [writeString, writeValue, writeMembers, writeWithIndent_true, writeWithIndent_false,
    pushValue_mk, put_mk, indent_mk, unindent_mk, Writer.colonSymbol]
  apply String.ext
  simp only [String.data_append, List.append_assoc]
  rfl

/-- C9 (as amended): once the handshake has succeeded, `sendRequest` hands
exactly one byte string to `SSL_write`, with nothing before or after it: the
document that `Json::writeString` with a default `StreamWriterBuilder` produces
for the login payload.  Its members are in key order (`arguments` before
`command`), it is indented with tabs over several lines, and the two values
are quoted by `valueToQuotedString`, which puts a string of printable ASCII
characters other than the double quote and the backslash between double quotes
unchanged. -/
theorem sendRequest_writes_styled_document (lib : JsonCpp) (env : Env) (serverIp : String)
    (serverPort : Int) (email password : String) (h : reachesWrite env) :
    (∃ payload : JsonValue, buildPayload email password = some payload ∧
      writesOf (sendRequest lib env serverIp serverPort payload).trace =
        ["\x7b\n\t\"arguments\" : \n\t\x7b\n\t\t\"email\" : " ++ valueToQuotedString lib email ++
          ",\n\t\t\"password\" : " ++ valueToQuotedString lib password ++
          "\n\t\x7d,\n\t\"command\" : \"login\"\n\x7d"]) ∧
    (∀ s : String,
      (∀ c ∈ s.toList, 32 ≤ c.toNat ∧ c.toNat < 128 ∧ c ≠ Char.ofNat 34 ∧ c ≠ Char.ofNat 92) →
      valueToQuotedString lib s = "\"" ++ s ++ "\"") := by
  refine ⟨⟨_, buildPayload_eq email password, ?_⟩, valueToQuotedString_plain lib⟩
  rw [writesOf_sendRequest lib env serverIp serverPort _ h, writeString_login]

/-- C9 (as stated) fails: for the command line of scenario A the bytes written
are not the compact document with `command` first; they are the indented
document with `arguments` first. -/
theorem main_write_is_not_compact :
    writesOf (main exampleLib envAllSucceed ["client", "--server-ip", "127.0.0.1",
      "--server-port", "8443", "--email", "a@b.com", "--password", "secret"]).trace ≠
      ["\x7b\"command\":\"login\",\"arguments\":\x7b\"email\":\"a@b.com\",\"password\":\"secret\"\x7d\x7d"] ∧
    writesOf (main exampleLib envAllSucceed ["client", "--server-ip", "127.0.0.1",
      "--server-port", "8443", "--email", "a@b.com", "--password", "secret"]).trace =
      ["\x7b\n\t\"arguments\" : \n\t\x7b\n\t\t\"email\" : \"a@b.com\",\n\t\t\"password\" : \"secret\"\n\t\x7d,\n\t\"command\" : \"login\"\n\x7d"] := by
  rw [main_eq, parseArguments_eq]
  decide

/-- C9 (as amended) at a concrete run. -/
theorem sendRequest_writes_styled_document_witness :
    reachesWrite envAllSucceed ∧
    ((∃ payload : JsonValue, buildPayload "a@b.com" "secret" = some payload ∧
      writesOf (sendRequest exampleLib envAllSucceed "127.0.0.1" 8443 payload).trace =
        ["\x7b\n\t\"arguments\" : \n\t\x7b\n\t\t\"email\" : " ++
          valueToQuotedString exampleLib "a@b.com" ++
          ",\n\t\t\"password\" : " ++ valueToQuotedString exampleLib "secret" ++
          "\n\t\x7d,\n\t\"command\" : \"login\"\n\x7d"]) ∧
    (∀ s : String,
      (∀ c ∈ s.toList, 32 ≤ c.toNat ∧ c.toNat < 128 ∧ c ≠ Char.ofNat 34 ∧ c ≠ Char.ofNat 92) →
      valueToQuotedString exampleLib s = "\"" ++ s ++ "\"")) :=
  ⟨by decide, sendRequest_writes_styled_document exampleLib envAllSucceed "127.0.0.1" 8443
    "a@b.com" "secret" (by decide)⟩

theorem connectsOf_main (lib : JsonCpp) (env : Env) (argv : List String)
    (host portStr email password : String) (port : Int)
    (hhost : StdMap.find (parseArguments argv) "--server-ip" = some host)
    (hportStr : StdMap.find (parseArguments argv) "--server-port" = some portStr)
    (hemail : StdMap.find (parseArguments argv) "--email" = some email)
    (hpassword : StdMap.find (parseArguments argv) "--password" = some password)
    (hport : stoi portStr = some port)
    (hvalid : ¬ (host = "" ∨ port = 0 ∨ email = "" ∨ password = ""))
    (h : reachesConnect env) :
    connectsOf (main lib env argv).trace = [(host, htons port)] := by
  rw [main_eq, hhost, hportStr, hemail, hpassword]
  simp only [Option.getD, hport]
  rw [(mainBody_calls lib env host port email password _ hvalid
    (buildPayload_eq email password)).2]
  exact connectsOf_sendRequest lib env host port _ h

/-- C10: for every port `p ≠ 0`, once the address is parsed `sendRequest`
connects exactly once, to port `p mod 2^16`, a number from 0 to 65535 that
equals `p` exactly when `1 ≤ p ≤ 65535`; the ports 65536 and -1 pass the
validation of `main` and make it connect to port 0 and port 65535. -/
theorem sendRequest_connects_to_port_mod (lib : JsonCpp) (env : Env) (serverIp : String)
    (p : Int) (payload : JsonValue) (hp : p ≠ 0) (h : reachesConnect env) :
    connectsOf (sendRequest lib env serverIp p payload).trace = [(serverIp, p % 65536)] ∧
    (0 ≤ p % 65536 ∧ p % 65536 < 65536) ∧
    (p % 65536 = p ↔ 1 ≤ p ∧ p ≤ 65535) ∧
    connectsOf (main lib env ["client", "--server-ip", "127.0.0.1", "--server-port", "65536",
      "--email", "a@b.com", "--password", "secret"]).trace = [("127.0.0.1", 0)] ∧
    connectsOf (main lib env ["client", "--server-ip", "127.0.0.1", "--server-port", "-1",
      "--email", "a@b.com", "--password", "secret"]).trace = [("127.0.0.1", 65535)] := by
  refine ⟨connectsOf_sendRequest lib env serverIp p payload h, by omega, by omega, ?_, ?_⟩
  · exact connectsOf_main lib env ["client", "--server-ip", "127.0.0.1", "--server-port",
      "65536", "--email", "a@b.com", "--password", "secret"]
      "127.0.0.1" "65536" "a@b.com" "secret" 65536
      (by rw [parseArguments_eq]; decide) (by rw [parseArguments_eq]; decide)
      (by rw [parseArguments_eq]; decide) (by rw [parseArguments_eq]; decide) (by decide)
      (by decide) h
  · exact connectsOf_main lib env ["client", "--server-ip", "127.0.0.1", "--server-port",
      "-1", "--email", "a@b.com", "--password", "secret"]
      "127.0.0.1" "-1" "a@b.com" "secret" (-1)
      (by rw [parseArguments_eq]; decide) (by rw [parseArguments_eq]; decide)
      (by rw [parseArguments_eq]; decide) (by rw [parseArguments_eq]; decide) (by decide)
      (by decide) h

/-- C10 at a concrete run: port 70000 reaches port 4464. -/
theorem sendRequest_connects_to_port_mod_witness :
    ((70000 : Int) ≠ 0 ∧ reachesConnect envAllSucceed) ∧
    (connectsOf (sendRequest exampleLib envAllSucceed "127.0.0.1" 70000 JsonValue.null).trace =
        [("127.0.0.1", (70000 : Int) % 65536)] ∧
    (0 ≤ (70000 : Int) % 65536 ∧ (70000 : Int) % 65536 < 65536) ∧
    ((70000 : Int) % 65536 = 70000 ↔ 1 ≤ (70000 : Int) ∧ (70000 : Int) ≤ 65535) ∧
    connectsOf (main exampleLib envAllSucceed ["client", "--server-ip", "127.0.0.1",
      "--server-port", "65536", "--email", "a@b.com", "--password", "secret"]).trace =
        [("127.0.0.1", 0)] ∧
    connectsOf (main exampleLib envAllSucceed ["client", "--server-ip", "127.0.0.1",
      "--server-port", "-1", "--email", "a@b.com", "--password", "secret"]).trace =
        [("127.0.0.1", 65535)]) :=
  ⟨⟨by decide, by decide⟩, sendRequest_connects_to_port_mod exampleLib envAllSucceed
    "127.0.0.1" 70000 JsonValue.null (by decide) (by decide)⟩

end MCPLogin
